import Mathlib

/-!
Verification development for the DocuExtract batch-extraction pipeline.

The definitions below are a shallow embedding of the application's core:
the upload boundary (`handleFileUpload` / `addFileToQueue`), the extraction
client's response handling (`extractDataFromDocument` in
`src/services/geminiService.ts`), the batch orchestrators (the parallel
`processBatch` of `src/App.tsx` and the sequential `processBatch` of
`src/constants.tsx` / the sequential App copy in `src/services/geminiService.ts`),
the header derivation (`originalHeaders`), and the export adapter
(`downloadAsExcel` in `src/utils/excelUtils`).

External collaborators (the browser's `JSON.parse`, the model endpoint, the
XLSX library, the OCR engines) are modelled at their interface boundary:
`JSON.parse` by an executable JSON parser over the value fragment the
application exchanges, the model endpoint by the response text it returns,
the OCR engines by injected functions that may fail.
-/

set_option maxHeartbeats 2000000
set_option maxRecDepth 8000

namespace DocuExtract

/-- Scalar cell value of an extracted record; `types.ts` declares
`ExtractedItem` values as `string | number | null` (numbers restricted to
integers in this model). -/
inductive Scalar where
  | s (v : String)
  | n (v : Int)
  | null
deriving DecidableEq, Repr

/-- One extracted row (`types.ts` `ExtractedItem`): an ordered mapping from
column name to scalar value, modelled as an association list (JSON objects
preserve insertion order of keys). -/
abbrev ExtractedItem := List (String × Scalar)

/-- From `types.ts`: `ExtractionResponse`: the shape the extraction client is
declared to return. -/
structure ExtractionResponse where
  extracted_data : List ExtractedItem
deriving DecidableEq, Repr

/-- Per-document processing state (`types.ts` `FileData.status`). -/
inductive FileStatus where
  | pending
  | processing
  | completed
  | error
deriving DecidableEq, Repr

/-- Per-document OCR state (`FileDataExtended.ocrStatus` in the App files). -/
inductive OcrStatus where
  | idle
  | running
  | done
  | skipped
  | error
deriving DecidableEq, Repr

/-- Batch-level status (`types.ts` `ExtractionStatus`). -/
inductive ExtractionStatus where
  | IDLE
  | PROCESSING
  | SUCCESS
  | ERROR
deriving DecidableEq, Repr

/-- A queued document (`types.ts` `FileData` extended with `ocrStatus`). -/
structure FileDataX where
  id : String
  base64 : String
  mimeType : String
  name : String
  status : FileStatus
  ocrStatus : OcrStatus
deriving DecidableEq, Repr

/-- Models `src/constants.tsx`: the upload allow-list. -/
def SUPPORTED_FILE_TYPES : List String :=
  ["image/png", "image/jpeg", "image/webp", "application/pdf"]

/-- Models `src/constants.tsx`: the 10 MiB per-file size limit. -/
def MAX_FILE_SIZE : Nat := 10 * 1024 * 1024

/-- A file as handed to the upload boundary by the browser (name, declared
media type, byte size, and the base64 payload the `FileReader` produces). -/
structure BrowserFile where
  name : String
  type : String
  size : Nat
  content : String
deriving DecidableEq, Repr

/-- Models `src/App.tsx` `addFileToQueue`: appends a new queue entry with status
`pending` and OCR state `idle`.  The generated random id is opaque and
irrelevant to the pipeline, so it is modelled as the empty string. -/
def addFileToQueue (queue : List FileDataX) (base64 mimeType name : String) :
    List FileDataX :=
  queue ++ [{ id := "", base64 := base64, mimeType := mimeType, name := name,
              status := .pending, ocrStatus := .idle }]

/-- Models `src/App.tsx` `handleFileUpload`: every selected file is read and added to
the queue via `addFileToQueue`.  No size or media-type check is performed
anywhere on this path (the constants `MAX_FILE_SIZE` and
`SUPPORTED_FILE_TYPES` are never consulted by any caller in the sources). -/
def handleFileUpload (queue : List FileDataX) (selectedFiles : List BrowserFile) :
    List FileDataX :=
  selectedFiles.foldl (fun q f => addFileToQueue q f.content f.type f.name) queue

/-- First-occurrence de-duplication of a key list; models the fact that the
keys of a JavaScript object (`Object.keys`) are unique in first-insertion
order, composed with `Array.from(new Set(...))`. -/
def uniqKeysAux (seen : List String) : List String → List String
  | [] => []
  | k :: rest =>
    if k ∈ seen then uniqKeysAux seen rest else k :: uniqKeysAux (k :: seen) rest

/-- Models `Object.keys` on a row modelled as an association list. -/
def objectKeys (row : ExtractedItem) : List String :=
  uniqKeysAux [] (row.map Prod.fst)

/-- Models `src/App.tsx` line 319 (and the sequential App copy): the table headers
are the keys of the first merged row, or empty when there is no data. -/
def originalHeaders (data : List ExtractedItem) : List String :=
  match data with
  | [] => []
  | row0 :: _ => objectKeys row0

/-- A single worksheet as produced by the external XLSX library boundary
(`XLSX.utils.json_to_sheet`): the rows handed to it. -/
structure Worksheet where
  rows : List ExtractedItem
deriving DecidableEq, Repr

/-- A workbook as produced by the external XLSX library boundary. -/
structure Workbook where
  sheets : List (String × Worksheet)
deriving DecidableEq, Repr

/-- Models `XLSX.utils.json_to_sheet`: external boundary, rows in, sheet out. -/
def json_to_sheet (data : List ExtractedItem) : Worksheet := ⟨data⟩

/-- Models `XLSX.utils.book_new`: external boundary, fresh empty workbook. -/
def book_new : Workbook := ⟨[]⟩

/-- Models `XLSX.utils.book_append_sheet`: external boundary. -/
def book_append_sheet (workbook : Workbook) (worksheet : Worksheet)
    (sheetName : String) : Workbook :=
  ⟨workbook.sheets ++ [(sheetName, worksheet)]⟩

/-- Models `src/utils/excelUtils.ts` `downloadAsExcel`: returns without any effect
when the row list is empty; otherwise builds a workbook and triggers
`XLSX.writeFile(workbook, fileName)`.  The triggered download is modelled as
the returned workbook/filename pair, `none` meaning no download happened. -/
def downloadAsExcel (data : List ExtractedItem) (fileName : String) :
    Option (Workbook × String) :=
  if data.length = 0 then none
  else
    let worksheet := json_to_sheet data
    let workbook := book_append_sheet book_new worksheet ("Data")
    some (workbook, fileName)

/-! ### JSON values, serialization and parsing

The extraction client hands the (fence-stripped) response text to the
browser's `JSON.parse`.  That external builtin is modelled by an executable
recursive-descent parser over the JSON fragment the application exchanges
(objects, arrays, strings with `\"`/`\\` escapes, integer numbers, booleans
and null; no fraction/exponent forms). -/

/-- General JSON value. -/
inductive Json where
  | null
  | bool (b : Bool)
  | num (n : Int)
  | str (s : String)
  | arr (elems : List Json)
  | obj (members : List (String × Json))
deriving Repr

/-- JSON whitespace (the characters relevant to this development). -/
def isWs (c : Char) : Bool :=
  c = ' ' || c = '\n' || c = '\t' || c = '\r'

/-- Drop leading whitespace. -/
def skipWs : List Char → List Char
  | [] => []
  | c :: rest => if isWs c then skipWs rest else c :: rest

/-- Models `String.prototype.trim` on a character list. -/
def trimChars (s : List Char) : List Char :=
  ((s.dropWhile isWs).reverse.dropWhile isWs).reverse

/-- First alternative of the sanitizing regex `/^```json\s*|```$/g`:
remove a leading literal <code>```json</code> together with the following
whitespace run. -/
def dropFenceOpen (s : List Char) : List Char :=
  match s with
  | '\x60' :: '\x60' :: '\x60' :: 'j' :: 's' :: 'o' :: 'n' :: rest =>
      rest.dropWhile isWs
  | _ => s

/-- Second alternative of the sanitizing regex: remove a trailing literal
<code>```</code>. -/
def dropFenceClose (s : List Char) : List Char :=
  match s.reverse with
  | '\x60' :: '\x60' :: '\x60' :: rest => rest.reverse
  | _ => s

/-- The response sanitization of `src/services/geminiService.ts` line 69:
`text.trim().replace(/^```json\s*|```$/g, '')`. -/
def sanitizeChars (s : List Char) : List Char :=
  dropFenceClose (dropFenceOpen (trimChars s))

/-- String-level sanitization. -/
def sanitize (text : String) : String :=
  ⟨sanitizeChars text.data⟩

/-- Digit character for a digit value (0–9). -/
def digitToChar (d : Nat) : Char :=
  match d with
  | 0 => '0' | 1 => '1' | 2 => '2' | 3 => '3' | 4 => '4'
  | 5 => '5' | 6 => '6' | 7 => '7' | 8 => '8' | _ => '9'

/-- Digit value of a digit character. -/
def charToDigit (c : Char) : Nat := c.toNat - 48

/-- Decimal digits of a natural number, most significant first (fuelled so
that it evaluates by kernel reduction). -/
def natCharsAux : Nat → Nat → List Char
  | 0, _ => []
  | fuel + 1, n =>
    if n < 10 then [digitToChar n]
    else natCharsAux fuel (n / 10) ++ [digitToChar (n % 10)]

/-- Decimal digits of a natural number. -/
def natChars (n : Nat) : List Char := natCharsAux (n + 1) n

/-- Serialization of an integer (JSON number). -/
def intChars (i : Int) : List Char :=
  if i < 0 then '-' :: natChars i.natAbs else natChars i.toNat

/-- String-body escaping used by the serializer: `"` and `\` are escaped,
everything else is emitted verbatim. -/
def escapeChars : List Char → List Char
  | [] => []
  | c :: rest =>
    if c = '"' ∨ c = '\\' then '\\' :: c :: escapeChars rest
    else c :: escapeChars rest

/-- Serialization of a scalar value. -/
def scalarChars : Scalar → List Char
  | .s v => '"' :: (escapeChars v.data ++ ['"'])
  | .n i => intChars i
  | .null => ['n', 'u', 'l', 'l']

/-- Serialization of one object member `"key":value`. -/
def pairChars (p : String × Scalar) : List Char :=
  '"' :: (escapeChars p.1.data ++ '"' :: ':' :: scalarChars p.2)

/-- Comma-separated concatenation. -/
def joinSep : List (List Char) → List Char
  | [] => []
  | [x] => x
  | x :: y :: rest => x ++ ',' :: joinSep (y :: rest)

/-- Serialization of one extracted row as a JSON object. -/
def recChars (r : ExtractedItem) : List Char :=
  '\x7b' :: (joinSep (r.map pairChars) ++ ['\x7d'])

/-- Serialization of the row list as a JSON array. -/
def rowsChars (rows : List ExtractedItem) : List Char :=
  '[' :: (joinSep (rows.map recChars) ++ [']'])

/-- Serialization of a full extraction response
`{"extracted_data":[...]}`. -/
def respChars (rows : List ExtractedItem) : List Char :=
  '\x7b' :: (('"' :: ("extracted_data".data ++ '"' :: ':' :: rowsChars rows))
    ++ ['\x7d'])

/-- The response text as a string. -/
def respSerialize (rows : List ExtractedItem) : String :=
  ⟨respChars rows⟩

/-- The JSON value a scalar denotes. -/
def scalarJson : Scalar → Json
  | .s v => .str v
  | .n i => .num i
  | .null => .null

/-- The JSON value a row denotes. -/
def recJson (r : ExtractedItem) : Json :=
  .obj (r.map (fun p => (p.1, scalarJson p.2)))

/-- The JSON value a full extraction response denotes. -/
def respJson (rows : List ExtractedItem) : Json :=
  .obj [("extracted_data", .arr (rows.map recJson))]

/-- The markdown code fence of the spec's round-trip example:
wraps a response text in <code>```json\n...\n```</code>. -/
def wrapFence (s : String) : String :=
  "```json\n" ++ s ++ "\n```"

/-- Parse a JSON string body (after the opening quote), unescaping `\"` and
`\\` (other backslash pairs are unescaped leniently as `JSON.parse` would
for `\n`, `\t`; the serializer never produces them). -/
def parseStringBody : List Char → Option (List Char × List Char)
  | [] => none
  | c :: rest =>
    if c = '"' then some ([], rest)
    else if c = '\\' then
      match rest with
      | [] => none
      | d :: rest2 =>
        (parseStringBody rest2).map (fun r =>
          ((if d = 'n' then '\n' else if d = 't' then '\t' else d) :: r.1, r.2))
    else (parseStringBody rest).map (fun r => (c :: r.1, r.2))

/-- Longest digit prefix. -/
def parseDigits : List Char → List Char × List Char
  | [] => ([], [])
  | c :: rest =>
    if c.isDigit then
      let r := parseDigits rest
      (c :: r.1, r.2)
    else ([], c :: rest)

/-- Numeric value of a digit list. -/
def digitsVal (ds : List Char) : Nat :=
  ds.foldl (fun a c => a * 10 + charToDigit c) 0

mutual

/-- Fuelled recursive-descent parse of one JSON value; returns the value and
the unconsumed remainder. -/
def parseVal : Nat → List Char → Option (Json × List Char)
  | 0, _ => none
  | fuel + 1, s =>
    match skipWs s with
    | [] => none
    | c :: rest =>
      if c = '"' then (parseStringBody rest).map (fun r => (.str ⟨r.1⟩, r.2))
      else if c = '[' then (parseArrTail fuel rest).map (fun r => (.arr r.1, r.2))
      else if c = '\x7b' then (parseObjTail fuel rest).map (fun r => (.obj r.1, r.2))
      else if c = '-' then
        let r := parseDigits rest
        if r.1 = [] then none else some (.num (-(digitsVal r.1 : Int)), r.2)
      else if c.isDigit then
        let r := parseDigits (c :: rest)
        some (.num (digitsVal r.1 : Int), r.2)
      else if c = 'n' then
        match rest with
        | 'u' :: 'l' :: 'l' :: r => some (.null, r)
        | _ => none
      else if c = 't' then
        match rest with
        | 'r' :: 'u' :: 'e' :: r => some (.bool true, r)
        | _ => none
      else if c = 'f' then
        match rest with
        | 'a' :: 'l' :: 's' :: 'e' :: r => some (.bool false, r)
        | _ => none
      else none

/-- Parse the tail of a JSON array (after the opening bracket). -/
def parseArrTail : Nat → List Char → Option (List Json × List Char)
  | 0, _ => none
  | fuel + 1, s =>
    match skipWs s with
    | [] => none
    | c :: rest =>
      if c = ']' then some ([], rest)
      else
        match parseVal fuel (c :: rest) with
        | none => none
        | some (v, r1) =>
          match skipWs r1 with
          | [] => none
          | d :: r2 =>
            if d = ',' then (parseArrTail fuel r2).map (fun r => (v :: r.1, r.2))
            else if d = ']' then some ([v], r2)
            else none

/-- Parse the tail of a JSON object (after the opening brace). -/
def parseObjTail : Nat → List Char → Option (List (String × Json) × List Char)
  | 0, _ => none
  | fuel + 1, s =>
    match skipWs s with
    | [] => none
    | c :: rest =>
      if c = '\x7d' then some ([], rest)
      else if c = '"' then
        match parseStringBody rest with
        | none => none
        | some (key, r1) =>
          match skipWs r1 with
          | [] => none
          | d :: r2 =>
            if d = ':' then
              match parseVal fuel r2 with
              | none => none
              | some (v, r3) =>
                match skipWs r3 with
                | [] => none
                | e :: r4 =>
                  if e = ',' then
                    (parseObjTail fuel r4).map (fun r => ((⟨key⟩, v) :: r.1, r.2))
                  else if e = '\x7d' then some ([(⟨key⟩, v)], r4)
                  else none
            else none
      else none

end

/-- The external `JSON.parse` boundary on the modelled fragment: parses a
single JSON value surrounded by optional whitespace, rejecting trailing
garbage. -/
def jsonParse (s : String) : Option Json :=
  match parseVal (2 * s.data.length + 4) s.data with
  | some (v, rest) => if skipWs rest = [] then some v else none
  | none => none

/-- Errors of the extraction client's response handling
(`src/services/geminiService.ts` lines 64–75). -/
inductive ExtractError where
  | emptyResponse
  | invalidResponseFormat
deriving DecidableEq, Repr

/-- Models `src/services/geminiService.ts` lines 64–75 (identically in the other
copies of the client): the response handling of `extractDataFromDocument`.
Throws `EmptyResponse` when the model returned no text, sanitizes the text,
parses it, and on parse failure throws `InvalidResponseFormat`.  The parsed
value is returned by the unchecked cast `as ExtractionResponse` — no shape
validation happens, faithfully modelled by returning the raw `Json`. -/
def extractDataFromDocument (text : String) : Except ExtractError Json :=
  if text = "" then .error .emptyResponse
  else
    let jsonString := sanitize text
    match jsonParse jsonString with
    | some v => .ok v
    | none => .error .invalidResponseFormat

/-! ### Batch orchestrators

`src/App.tsx` `processBatch` (lines 261–309) dispatches all documents
concurrently and assembles results with `Promise.all`; the sequential
`processBatch` copies (`src/constants.tsx` lines 339–388 and the App copy in
`src/services/geminiService.ts` lines 416–468) loop over the queue in order.
The OCR engines and the extraction client are injected as functions ­—
`.error` models a thrown exception. -/

/-- OCR step dispatch (identical in all orchestrator copies): PDF documents
go to `extractTextFromPdf`, `image/*` documents to `performImageOcr`, any
other media type performs no call and leaves the OCR text empty. -/
def ocrDispatch (extractTextFromPdf : String → Except Unit String)
    (performImageOcr : String → String → Except Unit String)
    (file : FileDataX) : Except Unit String :=
  if file.mimeType = "application/pdf" then extractTextFromPdf file.base64
  else if file.mimeType.startsWith ("image/") then
    performImageOcr file.base64 file.mimeType
  else .ok ("")

/-- Observable outcome of processing one document: its final queue states,
the OCR text the extraction client was invoked with (`none` when extraction
was never reached), and the rows the document contributed. -/
structure DocTrace where
  status : FileStatus
  ocrStatus : OcrStatus
  extractCalledWith : Option String
  records : List ExtractedItem
deriving DecidableEq, Repr

/-- Shared tail of the per-document pipelines that push `extracted_data`
verbatim (`src/App.tsx` lines 283–289, `src/services/geminiService.ts` App
copy lines 445–453): run the extraction client, mark the document
`completed` or `error`. -/
def afterOcrExtract (extract : FileDataX → String → Except Unit ExtractionResponse)
    (file : FileDataX) (ocrText : String) (ocrSt : OcrStatus) : DocTrace :=
  match extract file ocrText with
  | .ok result =>
    { status := .completed, ocrStatus := ocrSt, extractCalledWith := some ocrText,
      records := result.extracted_data }
  | .error _ =>
    { status := .error, ocrStatus := ocrSt, extractCalledWith := some ocrText,
      records := [] }

/-- One task of the parallel `processBatch` (`src/App.tsx` lines 267–290).
The whole task body sits in a single try/catch: the OCR step has no inner
handler, so an OCR throw lands in the per-document catch — the document is
marked `error`, its `ocrStatus` is left at `running`, extraction is never
reached and the task contributes `[]`.  With OCR disabled there is no
else-branch, so `ocrStatus` stays `idle`. -/
def parallelTask (isOcrEnabled : Bool)
    (extractTextFromPdf : String → Except Unit String)
    (performImageOcr : String → String → Except Unit String)
    (extract : FileDataX → String → Except Unit ExtractionResponse)
    (file : FileDataX) : DocTrace :=
  if isOcrEnabled then
    match ocrDispatch extractTextFromPdf performImageOcr file with
    | .error _ =>
      { status := .error, ocrStatus := .running, extractCalledWith := none,
        records := [] }
    | .ok t => afterOcrExtract extract file t .done
  else afterOcrExtract extract file ("") .idle

/-- One iteration of the sequential `processBatch` of the App copy in
`src/services/geminiService.ts` (lines 427–453): the OCR step has its own
inner try/catch (`ocrStatus` drops to `error`, the OCR text stays empty and
the pipeline continues), but with OCR disabled there is no else-branch, so
`ocrStatus` stays `idle`. -/
def seqDocPlain (isOcrEnabled : Bool)
    (extractTextFromPdf : String → Except Unit String)
    (performImageOcr : String → String → Except Unit String)
    (extract : FileDataX → String → Except Unit ExtractionResponse)
    (file : FileDataX) : DocTrace :=
  if isOcrEnabled then
    match ocrDispatch extractTextFromPdf performImageOcr file with
    | .ok t => afterOcrExtract extract file t .done
    | .error _ => afterOcrExtract extract file ("") .error
  else afterOcrExtract extract file ("") .idle

/-- JavaScript object update `{ ...item, 'Source_File': name }`: an existing
key keeps its position and receives the new value, a fresh key is appended. -/
def setKey (r : ExtractedItem) (k : String) (v : Scalar) : ExtractedItem :=
  if r.any (fun p => p.1 = k) then r.map (fun p => if p.1 = k then (k, v) else p)
  else r ++ [(k, v)]

/-- Extraction tail of the sequential `processBatch` of `src/constants.tsx`
(lines 370–382): every extracted row is augmented with a `Source_File`
column before being pushed. -/
def constantsAfterOcr (extract : FileDataX → String → Except Unit ExtractionResponse)
    (file : FileDataX) (ocrText : String) (ocrSt : OcrStatus) : DocTrace :=
  match extract file ocrText with
  | .ok result =>
    { status := .completed, ocrStatus := ocrSt, extractCalledWith := some ocrText,
      records := result.extracted_data.map
        (fun item => setKey item ("Source_File") (.s file.name)) }
  | .error _ =>
    { status := .error, ocrStatus := ocrSt, extractCalledWith := some ocrText,
      records := [] }

/-- One iteration of the sequential `processBatch` of `src/constants.tsx`
(lines 346–383): inner OCR try/catch as in `seqDocPlain`, and — unlike the
other orchestrators — an explicit else-branch that sets `ocrStatus` to
`skipped` when OCR is disabled. -/
def seqDocConstants (isOcrEnabled : Bool)
    (extractTextFromPdf : String → Except Unit String)
    (performImageOcr : String → String → Except Unit String)
    (extract : FileDataX → String → Except Unit ExtractionResponse)
    (file : FileDataX) : DocTrace :=
  if isOcrEnabled then
    match ocrDispatch extractTextFromPdf performImageOcr file with
    | .ok t => constantsAfterOcr extract file t .done
    | .error _ => constantsAfterOcr extract file ("") .error
  else constantsAfterOcr extract file ("") .skipped

/-- A scheduler trace for `Promise.all`: completions arrive in the order
given by `order`; each completion stores its task's output in the slot of
that task's original index. -/
def runCompletions {α : Type} (task : Nat → α) :
    List Nat → List (Option α) → List (Option α)
  | [], slots => slots
  | i :: rest, slots => runCompletions task rest (slots.set i (some (task i)))

/-- Models `Promise.all` over `n` tasks: resolves (to the outputs in original index
order) only once every slot has been filled, whatever the completion
order. -/
def promiseAll {α : Type} (task : Nat → α) (n : Nat) (order : List Nat) :
    Option (List α) :=
  (runCompletions task order (List.replicate n none)).mapM id

/-- Observable outcome of one batch run: final batch status, the argument of
`setData` (`none` when `setData` was not called), the argument of `setError`,
the initialized header mapping, the per-document traces, and the combined
row list the orchestrator computed. -/
structure BatchOutcome where
  status : ExtractionStatus
  dataSet : Option (List ExtractedItem)
  errorMsg : Option String
  headerMapping : List (String × String)
  docs : List DocTrace
  combined : List ExtractedItem
deriving DecidableEq, Repr

/-- Identity header mapping initialized from the first combined row
(`src/App.tsx` lines 302–307). -/
def initialMapping (combinedData : List ExtractedItem) : List (String × String) :=
  match combinedData with
  | [] => []
  | row0 :: _ => (objectKeys row0).map (fun k => (k, k))

/-- The parallel `processBatch` of `src/App.tsx` (lines 261–309).
`completionOrder` is the order in which the dispatched tasks finish;
`Promise.all` re-assembles outputs by original index, so the run resolves
(`some`) exactly when every index completes.  An empty queue returns
immediately without touching any state. -/
def processBatchParallel (isOcrEnabled : Bool)
    (extractTextFromPdf : String → Except Unit String)
    (performImageOcr : String → String → Except Unit String)
    (extract : FileDataX → String → Except Unit ExtractionResponse)
    (files : List FileDataX) (completionOrder : List Nat) : Option BatchOutcome :=
  if files.length = 0 then
    some { status := .IDLE, dataSet := none, errorMsg := none,
           headerMapping := [], docs := [], combined := [] }
  else
    let traces := files.map
      (parallelTask isOcrEnabled extractTextFromPdf performImageOcr extract)
    let outputs := traces.map (fun t => t.records)
    match promiseAll (fun i => outputs.getD i []) files.length completionOrder with
    | none => none
    | some results =>
      let combinedData := results.flatten
      if combinedData.length = 0 ∧ 0 < files.length then
        some { status := .ERROR, dataSet := none,
               errorMsg := some ("No data could be extracted. Please check the documents."),
               headerMapping := [], docs := traces, combined := combinedData }
      else
        some { status := .SUCCESS, dataSet := some combinedData, errorMsg := none,
               headerMapping := initialMapping combinedData, docs := traces,
               combined := combinedData }

/-- The sequential `processBatch` of the App copy in
`src/services/geminiService.ts` (lines 416–468): documents are processed in
queue order, their `extracted_data` pushed as they complete; the batch status
is set to SUCCESS unconditionally at the end and the header mapping is
initialized when any data was collected. -/
def processBatchSeqPlain (isOcrEnabled : Bool)
    (extractTextFromPdf : String → Except Unit String)
    (performImageOcr : String → String → Except Unit String)
    (extract : FileDataX → String → Except Unit ExtractionResponse)
    (files : List FileDataX) : BatchOutcome :=
  if files.length = 0 then
    { status := .IDLE, dataSet := none, errorMsg := none,
      headerMapping := [], docs := [], combined := [] }
  else
    let traces := files.map
      (seqDocPlain isOcrEnabled extractTextFromPdf performImageOcr extract)
    let allExtractedData := (traces.map (fun t => t.records)).flatten
    { status := .SUCCESS, dataSet := some allExtractedData, errorMsg := none,
      headerMapping := initialMapping allExtractedData, docs := traces,
      combined := allExtractedData }

/-- The extraction client as invoked by the orchestrators, including the
client construction of `src/services/geminiService.ts` line 36 /
`src/App.tsx` line 500: `new GoogleGenAI({ apiKey: process.env.API_KEY })`.
The repository performs no credential check of its own — the (possibly
absent) key is passed straight to the external constructor, whose throw on a
missing key is modelled by the `none` branch; with a key present the actual
network call and response handling are the injected `call`. -/
def extractWithClient (apiKey : Option String)
    (call : FileDataX → String → Except Unit ExtractionResponse)
    (file : FileDataX) (ocrText : String) : Except Unit ExtractionResponse :=
  match apiKey with
  | none => .error ()
  | some _ => call file ocrText

/-- Admissible first characters of the text following a serialized value:
nothing, or a separator/terminator of the surrounding JSON context. -/
def sepHead (rest : List Char) : Prop :=
  rest = [] ∨ ∃ c r, rest = c :: r ∧ (c = ',' ∨ c = ']' ∨ c = '\x7d' ∨ c = '\n')

/-- Fuel lower bound for parsing a serialized row list. -/
def rowsNeed : List ExtractedItem → Nat
  | [] => 1
  | r :: rs => r.length + 4 + rowsNeed rs

/-! ### Helper facts -/

/-- Sample queue entry used in concrete instantiations. -/
def mkFile (nm ty : String) : FileDataX :=
  { id := "", base64 := "", mimeType := ty, name := nm,
    status := .pending, ocrStatus := .idle }

theorem uniqKeysAux_mem (l : List String) (seen : List String) (k : String) :
    k ∈ uniqKeysAux seen l ↔ k ∈ l ∧ k ∉ seen := by
  induction l generalizing seen with
  | nil => simp [uniqKeysAux]
  | cons a rest ih =>
    by_cases ha : a ∈ seen
    · simp only [uniqKeysAux, if_pos ha, ih, List.mem_cons]
      constructor
      · rintro ⟨h1, h2⟩; exact ⟨Or.inr h1, h2⟩
      · rintro ⟨rfl | h1, h2⟩
        · exact absurd ha h2
        · exact ⟨h1, h2⟩
    · simp only [uniqKeysAux, if_neg ha, List.mem_cons, ih]
      constructor
      · rintro (rfl | ⟨h1, h2⟩)
        · exact ⟨Or.inl rfl, ha⟩
        · exact ⟨Or.inr h1, fun hx => h2 (Or.inr hx)⟩
      · rintro ⟨rfl | h1, h2⟩
        · exact Or.inl rfl
        · by_cases hk : k = a
          · exact Or.inl hk
          · refine Or.inr ⟨h1, fun hx => ?_⟩
            rcases hx with h | h
            · exact hk h
            · exact h2 h

theorem uniqKeysAux_nodup (l : List String) (seen : List String) :
    (uniqKeysAux seen l).Nodup := by
  induction l generalizing seen with
  | nil => simp [uniqKeysAux]
  | cons a rest ih =>
    by_cases ha : a ∈ seen
    · simpa [uniqKeysAux, ha] using ih seen
    · simp only [uniqKeysAux, if_neg ha, List.nodup_cons]
      refine ⟨fun hmem => ?_, ih (a :: seen)⟩
      exact ((uniqKeysAux_mem _ _ _).1 hmem).2 (List.mem_cons_self a seen)

theorem runCompletions_length {α : Type} (task : Nat → α) (order : List Nat)
    (slots : List (Option α)) :
    (runCompletions task order slots).length = slots.length := by
  induction order generalizing slots with
  | nil => rfl
  | cons i rest ih => simp [runCompletions, ih, List.length_set]

theorem runCompletions_getElem {α : Type} (task : Nat → α) (order : List Nat)
    (slots : List (Option α)) (j : Nat) :
    (runCompletions task order slots)[j]? =
      if j ∈ order ∧ j < slots.length then some (some (task j)) else slots[j]? := by
  induction order generalizing slots with
  | nil => simp [runCompletions]
  | cons i rest ih =>
    simp only [runCompletions]
    rw [ih]
    simp only [List.length_set, List.mem_cons]
    by_cases hji : i = j
    · subst hji
      by_cases hjr : i ∈ rest <;> by_cases hlen : i < slots.length <;>
        simp [hjr, hlen, List.getElem?_set, List.getElem?_eq_none,
          Nat.le_of_not_lt]
    · have hne : ¬ j = i := fun h => hji h.symm
      by_cases hjr : j ∈ rest <;> by_cases hlen : j < slots.length <;>
        simp [hjr, hlen, hne, List.getElem?_set_ne hji,
          List.getElem?_eq_none, Nat.le_of_not_lt]

theorem mapM_id_map_some {α : Type} (l : List α) :
    (l.map (fun a => some a)).mapM id = some l := by
  induction l with
  | nil => rfl
  | cons a rest ih =>
    rw [List.map_cons, List.mapM_cons, ih]
    rfl

theorem promiseAll_covering {α : Type} (task : Nat → α) (n : Nat) (order : List Nat)
    (hcov : ∀ i, i < n → i ∈ order) :
    promiseAll task n order = some ((List.range n).map task) := by
  unfold promiseAll
  have hslots : runCompletions task order (List.replicate n none)
      = (List.range n).map (fun i => some (task i)) := by
    apply List.ext_getElem?
    intro j
    rw [runCompletions_getElem]
    by_cases hj : j < n
    · simp [hcov j hj, hj, List.getElem?_map, List.getElem?_range hj]
    · rw [if_neg (by simp [hj])]
      rw [List.getElem?_eq_none (by simpa using Nat.le_of_not_lt hj),
        List.getElem?_eq_none (by simp [Nat.le_of_not_lt hj])]
  rw [hslots]
  have hcomp : (List.range n).map (fun i => some (task i))
      = ((List.range n).map task).map (fun a => some a) := by
    simp [List.map_map]
  rw [hcomp]
  exact mapM_id_map_some _

theorem range_map_getD {α : Type} (l : List α) (d : α) :
    (List.range l.length).map (fun i => l.getD i d) = l := by
  apply List.ext_getElem?
  intro j
  by_cases hj : j < l.length
  · rw [List.getElem?_map, List.getElem?_range hj]
    simp [List.getD_eq_getElem?_getD, List.getElem?_eq_getElem hj]
  · rw [List.getElem?_eq_none (by simp [Nat.le_of_not_lt hj]),
      List.getElem?_eq_none (Nat.le_of_not_lt hj)]

/-- Normal form of a completed parallel batch run: once every dispatched task
has completed (the completion order covers every index), `Promise.all`
resolves to the per-document outputs in original queue order, and the
outcome depends only on those outputs. -/
theorem processBatchParallel_eq (isOcrEnabled : Bool)
    (extractTextFromPdf : String → Except Unit String)
    (performImageOcr : String → String → Except Unit String)
    (extract : FileDataX → String → Except Unit ExtractionResponse)
    (files : List FileDataX) (order : List Nat)
    (hne : files ≠ [])
    (hcov : ∀ i, i < files.length → i ∈ order) :
    processBatchParallel isOcrEnabled extractTextFromPdf performImageOcr extract
        files order =
      (if ((files.map (parallelTask isOcrEnabled extractTextFromPdf performImageOcr
            extract)).map (fun t => t.records)).flatten.length = 0 then
        some { status := .ERROR, dataSet := none,
               errorMsg := some ("No data could be extracted. Please check the documents."),
               headerMapping := [],
               docs := files.map (parallelTask isOcrEnabled extractTextFromPdf
                 performImageOcr extract),
               combined := ((files.map (parallelTask isOcrEnabled extractTextFromPdf
                 performImageOcr extract)).map (fun t => t.records)).flatten }
      else
        some { status := .SUCCESS,
               dataSet := some (((files.map (parallelTask isOcrEnabled extractTextFromPdf
                 performImageOcr extract)).map (fun t => t.records)).flatten),
               errorMsg := none,
               headerMapping := initialMapping (((files.map (parallelTask isOcrEnabled
                 extractTextFromPdf performImageOcr extract)).map
                 (fun t => t.records)).flatten),
               docs := files.map (parallelTask isOcrEnabled extractTextFromPdf
                 performImageOcr extract),
               combined := ((files.map (parallelTask isOcrEnabled extractTextFromPdf
                 performImageOcr extract)).map (fun t => t.records)).flatten }) := by
  have hlen0 : files.length ≠ 0 := fun h => hne (List.length_eq_zero.mp h)
  have hpos : 0 < files.length := Nat.pos_of_ne_zero hlen0
  simp only [processBatchParallel]
  rw [if_neg hlen0]
  have houtlen : ((files.map (parallelTask isOcrEnabled extractTextFromPdf
      performImageOcr extract)).map (fun t => t.records)).length = files.length := by
    simp
  rw [show files.length = ((files.map (parallelTask isOcrEnabled extractTextFromPdf
      performImageOcr extract)).map (fun t => t.records)).length from houtlen.symm]
  rw [promiseAll_covering _ _ order (by rw [houtlen]; exact hcov)]
  rw [range_map_getD]
  rw [houtlen]
  simp only [hpos, and_true]

/-- Per-document record output agreement between the parallel task and the
sequential pipeline, given that the document's OCR step (when enabled) does
not throw. -/
theorem parallelTask_records_eq_seqDocPlain (isOcrEnabled : Bool)
    (extractTextFromPdf : String → Except Unit String)
    (performImageOcr : String → String → Except Unit String)
    (extract : FileDataX → String → Except Unit ExtractionResponse)
    (f : FileDataX)
    (hocr : isOcrEnabled = true →
      ocrDispatch extractTextFromPdf performImageOcr f ≠ .error ()) :
    (parallelTask isOcrEnabled extractTextFromPdf performImageOcr extract f).records =
      (seqDocPlain isOcrEnabled extractTextFromPdf performImageOcr extract f).records := by
  cases isOcrEnabled with
  | false => rfl
  | true =>
    unfold parallelTask seqDocPlain
    cases hD : ocrDispatch extractTextFromPdf performImageOcr f with
    | ok t => simp
    | error e => cases e; exact absurd hD (hocr rfl)

/-- A document whose every extraction attempt fails contributes no rows and
is marked `error` by the parallel task. -/
theorem parallelTask_of_extract_fails (isOcrEnabled : Bool)
    (extractTextFromPdf : String → Except Unit String)
    (performImageOcr : String → String → Except Unit String)
    (extract : FileDataX → String → Except Unit ExtractionResponse)
    (f : FileDataX)
    (hfail : ∀ t, ∃ e : Unit, extract f t = .error e) :
    (parallelTask isOcrEnabled extractTextFromPdf performImageOcr extract f).records
        = [] ∧
    (parallelTask isOcrEnabled extractTextFromPdf performImageOcr extract f).status
        = .error := by
  cases isOcrEnabled with
  | false =>
    obtain ⟨e, he⟩ := hfail ("")
    cases e
    unfold parallelTask afterOcrExtract
    simp [he]
  | true =>
    unfold parallelTask
    cases hD : ocrDispatch extractTextFromPdf performImageOcr f with
    | ok t =>
      obtain ⟨e, he⟩ := hfail t
      cases e
      unfold afterOcrExtract
      simp [he]
    | error e => simp

/-- A document the parallel task marks `error` contributes no rows. -/
theorem parallelTask_error_no_records (isOcrEnabled : Bool)
    (extractTextFromPdf : String → Except Unit String)
    (performImageOcr : String → String → Except Unit String)
    (extract : FileDataX → String → Except Unit ExtractionResponse)
    (f : FileDataX)
    (herr : (parallelTask isOcrEnabled extractTextFromPdf performImageOcr
      extract f).status = .error) :
    (parallelTask isOcrEnabled extractTextFromPdf performImageOcr extract f).records
      = [] := by
  revert herr
  cases isOcrEnabled with
  | false =>
    unfold parallelTask afterOcrExtract
    cases hx : extract f ("") <;> simp [hx]
  | true =>
    unfold parallelTask
    cases hD : ocrDispatch extractTextFromPdf performImageOcr f with
    | ok t =>
      unfold afterOcrExtract
      cases hx : extract f t <;> simp [hx]
    | error e => simp

/-- With the credential absent the external client constructor throws inside
the per-document try, so (as long as the document's OCR step itself did not
throw) the document is marked `error`, the extraction call was issued, and no
rows are contributed. -/
theorem parallelTask_missing_credential (isOcrEnabled : Bool)
    (extractTextFromPdf : String → Except Unit String)
    (performImageOcr : String → String → Except Unit String)
    (call : FileDataX → String → Except Unit ExtractionResponse)
    (f : FileDataX)
    (hocr : isOcrEnabled = true →
      ocrDispatch extractTextFromPdf performImageOcr f ≠ .error ()) :
    (parallelTask isOcrEnabled extractTextFromPdf performImageOcr
        (extractWithClient none call) f).status = .error ∧
    (parallelTask isOcrEnabled extractTextFromPdf performImageOcr
        (extractWithClient none call) f).extractCalledWith.isSome = true ∧
    (parallelTask isOcrEnabled extractTextFromPdf performImageOcr
        (extractWithClient none call) f).records = [] := by
  cases isOcrEnabled with
  | false =>
    unfold parallelTask afterOcrExtract extractWithClient
    simp
  | true =>
    unfold parallelTask
    cases hD : ocrDispatch extractTextFromPdf performImageOcr f with
    | ok t =>
      unfold afterOcrExtract extractWithClient
      simp
    | error e => cases e; exact absurd hD (hocr rfl)

/-! ### Claim theorems -/

/-- C1: for every queue and any completion order that finishes every task,
the parallel batch resolves and its combined row list is the concatenation of
each document's extracted records in original queue (index) order; any two
completion orders produce the identical outcome; and (whenever the enabled
OCR steps do not throw) the combined list coincides with the one the
sequential orchestrator produces for the same queue and per-document
extraction results. -/
theorem parallel_assembly_queue_order (isOcrEnabled : Bool)
    (extractTextFromPdf : String → Except Unit String)
    (performImageOcr : String → String → Except Unit String)
    (extract : FileDataX → String → Except Unit ExtractionResponse)
    (files : List FileDataX) (order order' : List Nat)
    (hne : files ≠ [])
    (hcov : ∀ i, i < files.length → i ∈ order)
    (hcov' : ∀ i, i < files.length → i ∈ order')
    (hocr : isOcrEnabled = true →
      ∀ f ∈ files, ocrDispatch extractTextFromPdf performImageOcr f ≠ .error ()) :
    ∃ o, processBatchParallel isOcrEnabled extractTextFromPdf performImageOcr extract
        files order = some o ∧
      o.combined = (files.map (fun f =>
        (parallelTask isOcrEnabled extractTextFromPdf performImageOcr extract
          f).records)).flatten ∧
      processBatchParallel isOcrEnabled extractTextFromPdf performImageOcr extract
          files order' =
        processBatchParallel isOcrEnabled extractTextFromPdf performImageOcr extract
          files order ∧
      o.combined = (processBatchSeqPlain isOcrEnabled extractTextFromPdf
        performImageOcr extract files).combined := by
  have hlen0 : files.length ≠ 0 := fun h => hne (List.length_eq_zero.mp h)
  have hmm : ((files.map (parallelTask isOcrEnabled extractTextFromPdf performImageOcr
      extract)).map (fun t => t.records))
      = files.map (fun f => (parallelTask isOcrEnabled extractTextFromPdf
          performImageOcr extract f).records) := by
    rw [List.map_map]; rfl
  have hseq : (processBatchSeqPlain isOcrEnabled extractTextFromPdf performImageOcr
      extract files).combined
      = (files.map (fun f => (seqDocPlain isOcrEnabled extractTextFromPdf
          performImageOcr extract f).records)).flatten := by
    simp only [processBatchSeqPlain]
    rw [if_neg hlen0]
    rw [List.map_map]; rfl
  have hrec : files.map (fun f => (parallelTask isOcrEnabled extractTextFromPdf
      performImageOcr extract f).records)
      = files.map (fun f => (seqDocPlain isOcrEnabled extractTextFromPdf
          performImageOcr extract f).records) := by
    apply List.map_congr_left
    intro f hf
    exact parallelTask_records_eq_seqDocPlain _ _ _ _ _ (fun h => hocr h f hf)
  rw [processBatchParallel_eq _ _ _ _ _ order hne hcov,
    processBatchParallel_eq _ _ _ _ _ order' hne hcov']
  by_cases hC : ((files.map (parallelTask isOcrEnabled extractTextFromPdf
      performImageOcr extract)).map (fun t => t.records)).flatten.length = 0
  · rw [if_pos hC]
    exact ⟨_, rfl, by rw [List.map_map]; exact rfl, rfl,
      by rw [hseq, ← hrec, List.map_map]; exact rfl⟩
  · rw [if_neg hC]
    exact ⟨_, rfl, by rw [List.map_map]; exact rfl, rfl,
      by rw [hseq, ← hrec, List.map_map]; exact rfl⟩

/-- Witness for C1 at the spec's three-document example where document 2
completes before document 1 (completion order `[1, 0, 2]` against queue
order `[0, 1, 2]`). -/
theorem parallel_assembly_queue_order_witness :
    ∃ o, processBatchParallel false (fun _ => .ok ("")) (fun _ _ => .ok (""))
        (fun f _ => .ok ⟨[[("A", Scalar.s f.name)]]⟩)
        [mkFile ("doc1.png") ("image/png"), mkFile ("doc2.png") ("image/png"),
         mkFile ("doc3.png") ("image/png")] [1, 0, 2] = some o ∧
      o.combined = ([mkFile ("doc1.png") ("image/png"), mkFile ("doc2.png") ("image/png"),
          mkFile ("doc3.png") ("image/png")].map (fun f =>
        (parallelTask false (fun _ => .ok ("")) (fun _ _ => .ok (""))
          (fun f _ => .ok ⟨[[("A", Scalar.s f.name)]]⟩) f).records)).flatten ∧
      processBatchParallel false (fun _ => .ok ("")) (fun _ _ => .ok (""))
          (fun f _ => .ok ⟨[[("A", Scalar.s f.name)]]⟩)
          [mkFile ("doc1.png") ("image/png"), mkFile ("doc2.png") ("image/png"),
           mkFile ("doc3.png") ("image/png")] [0, 1, 2] =
        processBatchParallel false (fun _ => .ok ("")) (fun _ _ => .ok (""))
          (fun f _ => .ok ⟨[[("A", Scalar.s f.name)]]⟩)
          [mkFile ("doc1.png") ("image/png"), mkFile ("doc2.png") ("image/png"),
           mkFile ("doc3.png") ("image/png")] [1, 0, 2] ∧
      o.combined = (processBatchSeqPlain false (fun _ => .ok ("")) (fun _ _ => .ok (""))
        (fun f _ => .ok ⟨[[("A", Scalar.s f.name)]]⟩)
        [mkFile ("doc1.png") ("image/png"), mkFile ("doc2.png") ("image/png"),
         mkFile ("doc3.png") ("image/png")]).combined :=
  parallel_assembly_queue_order false (fun _ => .ok ("")) (fun _ _ => .ok (""))
    (fun f _ => .ok ⟨[[("A", Scalar.s f.name)]]⟩)
    [mkFile ("doc1.png") ("image/png"), mkFile ("doc2.png") ("image/png"),
     mkFile ("doc3.png") ("image/png")] [1, 0, 2] [0, 1, 2]
    (by decide) (by decide) (by decide) (fun h => nomatch h)

/-- C2 (amended): for a non-empty queue, if every document's extraction
fails then every document is marked `error` with no rows and the batch is
reported failed with the aggregate message even though each failure was
recovered per-document; and whenever the assembled row list is non-empty —
in particular when some document succeeds with at least one record — the
batch is reported successful with `BatchResult` equal to the queue-order
concatenation of per-document outputs, error-marked documents contributing
zero rows.  (A document that succeeds with zero records does not make the
batch successful; see the counterexample.) -/
theorem batch_aggregate_outcome (isOcrEnabled : Bool)
    (extractTextFromPdf : String → Except Unit String)
    (performImageOcr : String → String → Except Unit String)
    (extract : FileDataX → String → Except Unit ExtractionResponse)
    (files : List FileDataX) (order : List Nat)
    (hne : files ≠ [])
    (hcov : ∀ i, i < files.length → i ∈ order) :
    ∃ o, processBatchParallel isOcrEnabled extractTextFromPdf performImageOcr extract
        files order = some o ∧
      o.docs = files.map (parallelTask isOcrEnabled extractTextFromPdf
        performImageOcr extract) ∧
      o.combined = (files.map (fun f =>
        (parallelTask isOcrEnabled extractTextFromPdf performImageOcr extract
          f).records)).flatten ∧
      (∀ tr ∈ o.docs, tr.status = .error → tr.records = []) ∧
      ((∀ f ∈ files, ∀ t, ∃ e : Unit, extract f t = .error e) →
        o.status = .ERROR ∧ o.dataSet = none ∧
        o.errorMsg = some ("No data could be extracted. Please check the documents.") ∧
        ∀ tr ∈ o.docs, tr.status = .error ∧ tr.records = []) ∧
      (o.combined ≠ [] → o.status = .SUCCESS ∧ o.dataSet = some o.combined) := by
  have hdocs : ∀ tr ∈ files.map (parallelTask isOcrEnabled extractTextFromPdf
      performImageOcr extract), tr.status = .error → tr.records = [] := by
    intro tr htr herr
    obtain ⟨f, _, rfl⟩ := List.mem_map.mp htr
    exact parallelTask_error_no_records _ _ _ _ _ herr
  have hallfail : (∀ f ∈ files, ∀ t, ∃ e : Unit, extract f t = .error e) →
      ∀ tr ∈ files.map (parallelTask isOcrEnabled extractTextFromPdf
        performImageOcr extract), tr.status = .error ∧ tr.records = [] := by
    intro hfail tr htr
    obtain ⟨f, hf, rfl⟩ := List.mem_map.mp htr
    have := parallelTask_of_extract_fails isOcrEnabled extractTextFromPdf
      performImageOcr extract f (hfail f hf)
    exact ⟨this.2, this.1⟩
  have hmm : ((files.map (parallelTask isOcrEnabled extractTextFromPdf performImageOcr
      extract)).map (fun t => t.records))
      = files.map (fun f => (parallelTask isOcrEnabled extractTextFromPdf
          performImageOcr extract f).records) := by
    rw [List.map_map]; rfl
  have hfailflat : (∀ f ∈ files, ∀ t, ∃ e : Unit, extract f t = .error e) →
      ((files.map (parallelTask isOcrEnabled extractTextFromPdf performImageOcr
        extract)).map (fun t => t.records)).flatten = [] := by
    intro hfail
    rw [List.flatten_eq_nil_iff]
    intro l hl
    obtain ⟨tr, htr, rfl⟩ := List.mem_map.mp hl
    exact (hallfail hfail tr htr).2
  rw [processBatchParallel_eq _ _ _ _ _ order hne hcov]
  by_cases hC : ((files.map (parallelTask isOcrEnabled extractTextFromPdf
      performImageOcr extract)).map (fun t => t.records)).flatten.length = 0
  · rw [if_pos hC]
    refine ⟨_, rfl, rfl, by rw [List.map_map]; exact rfl, hdocs, ?_, ?_⟩
    · intro hfail
      exact ⟨rfl, rfl, rfl, hallfail hfail⟩
    · intro hcomb
      exact absurd (List.length_eq_zero.mp hC) hcomb
  · rw [if_neg hC]
    refine ⟨_, rfl, rfl, by rw [List.map_map]; exact rfl, hdocs, ?_,
      fun _ => ⟨rfl, rfl⟩⟩
    intro hfail
    exact absurd (by rw [hfailflat hfail]; rfl) hC

/-- Witness for the amended C2: a two-document queue where the first
document's extraction succeeds with one record and the second fails. -/
theorem batch_aggregate_outcome_witness :
    ∃ o, processBatchParallel false (fun _ => .ok ("")) (fun _ _ => .ok (""))
        (fun f _ => if f.name = "a.png" then .ok ⟨[[("A", Scalar.s ("1"))]]⟩
          else .error ())
        [mkFile ("a.png") ("image/png"), mkFile ("b.png") ("image/png")] [1, 0] = some o ∧
      o.docs = [mkFile ("a.png") ("image/png"), mkFile ("b.png") ("image/png")].map
        (parallelTask false (fun _ => .ok ("")) (fun _ _ => .ok (""))
          (fun f _ => if f.name = "a.png" then .ok ⟨[[("A", Scalar.s ("1"))]]⟩
            else .error ())) ∧
      o.combined = ([mkFile ("a.png") ("image/png"), mkFile ("b.png") ("image/png")].map
        (fun f => (parallelTask false (fun _ => .ok ("")) (fun _ _ => .ok (""))
          (fun f _ => if f.name = "a.png" then .ok ⟨[[("A", Scalar.s ("1"))]]⟩
            else .error ()) f).records)).flatten ∧
      (∀ tr ∈ o.docs, tr.status = .error → tr.records = []) ∧
      ((∀ f ∈ [mkFile ("a.png") ("image/png"), mkFile ("b.png") ("image/png")],
          ∀ t, ∃ e : Unit, (fun (f : FileDataX) (_ : String) =>
            if f.name = "a.png" then
              (Except.ok ⟨[[("A", Scalar.s ("1"))]]⟩ : Except Unit ExtractionResponse)
            else .error ()) f t = .error e) →
        o.status = .ERROR ∧ o.dataSet = none ∧
        o.errorMsg = some ("No data could be extracted. Please check the documents.") ∧
        ∀ tr ∈ o.docs, tr.status = .error ∧ tr.records = []) ∧
      (o.combined ≠ [] → o.status = .SUCCESS ∧ o.dataSet = some o.combined) :=
  batch_aggregate_outcome false (fun _ => .ok ("")) (fun _ _ => .ok (""))
    (fun f _ => if f.name = "a.png" then .ok ⟨[[("A", Scalar.s ("1"))]]⟩
      else .error ())
    [mkFile ("a.png") ("image/png"), mkFile ("b.png") ("image/png")] [1, 0]
    (by decide) (by decide)

/-- C2 counterexample: a single-document queue whose extraction SUCCEEDS but
returns zero records — the document reaches `completed`, yet the batch is
reported `ERROR` with the aggregate failure message, refuting "if at least
one document's extraction succeeds, the batch is reported successful". -/
theorem batch_success_zero_records_reported_failed :
    (parallelTask false (fun _ => .ok ("")) (fun _ _ => .ok (""))
        (fun _ _ => .ok ⟨[]⟩) (mkFile ("a.png") ("image/png"))).status = .completed ∧
    (processBatchParallel false (fun _ => .ok ("")) (fun _ _ => .ok (""))
        (fun _ _ => .ok ⟨[]⟩) [mkFile ("a.png") ("image/png")] [0]).map
        (fun o => (o.status, o.errorMsg))
      = some (.ERROR,
          some ("No data could be extracted. Please check the documents.")) :=
  ⟨rfl, rfl⟩

/-- C5 (amended): with the model-access credential absent the repository
performs no batch-level pre-check — an extraction call is issued for every
document (whose OCR step does not throw), each fails at client construction
inside the per-document handler, every document is marked `error`, and the
batch completes with the aggregate no-data failure rather than a dedicated
blocking credential error raised before the per-document calls. -/
theorem missing_credential_no_precheck (isOcrEnabled : Bool)
    (extractTextFromPdf : String → Except Unit String)
    (performImageOcr : String → String → Except Unit String)
    (call : FileDataX → String → Except Unit ExtractionResponse)
    (files : List FileDataX) (order : List Nat)
    (hne : files ≠ [])
    (hcov : ∀ i, i < files.length → i ∈ order)
    (hocr : isOcrEnabled = true →
      ∀ f ∈ files, ocrDispatch extractTextFromPdf performImageOcr f ≠ .error ()) :
    ∃ o, processBatchParallel isOcrEnabled extractTextFromPdf performImageOcr
        (extractWithClient none call) files order = some o ∧
      o.status = .ERROR ∧ o.dataSet = none ∧
      o.errorMsg = some ("No data could be extracted. Please check the documents.") ∧
      o.docs.length = files.length ∧
      (∀ tr ∈ o.docs, tr.status = .error ∧ tr.extractCalledWith.isSome = true ∧
        tr.records = []) := by
  have htask : ∀ tr ∈ files.map (parallelTask isOcrEnabled extractTextFromPdf
      performImageOcr (extractWithClient none call)),
      tr.status = .error ∧ tr.extractCalledWith.isSome = true ∧ tr.records = [] := by
    intro tr htr
    obtain ⟨f, hf, rfl⟩ := List.mem_map.mp htr
    exact parallelTask_missing_credential _ _ _ _ _ (fun h => hocr h f hf)
  have hflat : ((files.map (parallelTask isOcrEnabled extractTextFromPdf
      performImageOcr (extractWithClient none call))).map
      (fun t => t.records)).flatten = [] := by
    rw [List.flatten_eq_nil_iff]
    intro l hl
    obtain ⟨tr, htr, rfl⟩ := List.mem_map.mp hl
    exact (htask tr htr).2.2
  rw [processBatchParallel_eq _ _ _ _ _ order hne hcov]
  rw [if_pos (by rw [hflat]; rfl)]
  exact ⟨_, rfl, rfl, rfl, rfl, by simp, htask⟩

/-- Witness for the amended C5 on a concrete two-document queue. -/
theorem missing_credential_no_precheck_witness :
    ∃ o, processBatchParallel false (fun _ => .ok ("")) (fun _ _ => .ok (""))
        (extractWithClient none (fun _ _ => .ok ⟨[[("A", Scalar.s ("1"))]]⟩))
        [mkFile ("a.png") ("image/png"), mkFile ("b.pdf") ("application/pdf")] [0, 1]
        = some o ∧
      o.status = .ERROR ∧ o.dataSet = none ∧
      o.errorMsg = some ("No data could be extracted. Please check the documents.") ∧
      o.docs.length = ([mkFile ("a.png") ("image/png"),
        mkFile ("b.pdf") ("application/pdf")] : List FileDataX).length ∧
      (∀ tr ∈ o.docs, tr.status = .error ∧ tr.extractCalledWith.isSome = true ∧
        tr.records = []) :=
  missing_credential_no_precheck false (fun _ => .ok ("")) (fun _ _ => .ok (""))
    (fun _ _ => .ok ⟨[[("A", Scalar.s ("1"))]]⟩)
    [mkFile ("a.png") ("image/png"), mkFile ("b.pdf") ("application/pdf")] [0, 1]
    (by decide) (by decide) (fun h => nomatch h)

/-- C5 counterexample: with the credential absent, two extraction calls (one
per document) are still issued — the claim's "no extraction call is issued
for any document" and "fails with a MissingCredential configuration error
before any call" are both refuted: the run ends with the generic aggregate
no-data error after every document was attempted. -/
theorem missing_credential_calls_still_issued :
    (processBatchParallel false (fun _ => .ok ("")) (fun _ _ => .ok (""))
        (extractWithClient none (fun _ _ => .ok ⟨[[("A", Scalar.s ("1"))]]⟩))
        [mkFile ("a.png") ("image/png"), mkFile ("b.pdf") ("application/pdf")] [0, 1]).map
        (fun o => (o.status, o.errorMsg,
          (o.docs.filter (fun tr => tr.extractCalledWith.isSome)).length))
      = some (.ERROR,
          some ("No data could be extracted. Please check the documents."), 2) := rfl

/-- C8: `originalHeaders` returns the ordered unique key set of the first row
only — it does not depend on any later row (so it is not a union across all
rows), its entries are exactly the first row's keys without duplicates, and
an empty result list yields the empty header list. -/
theorem originalHeaders_first_row_only :
    (∀ (row0 : ExtractedItem) (rest rest' : List ExtractedItem),
        originalHeaders (row0 :: rest) = originalHeaders (row0 :: rest')) ∧
    (∀ (row0 : ExtractedItem) (rest : List ExtractedItem),
        originalHeaders (row0 :: rest) = objectKeys row0 ∧
        (originalHeaders (row0 :: rest)).Nodup ∧
        ∀ k, k ∈ originalHeaders (row0 :: rest) ↔ k ∈ row0.map Prod.fst) ∧
    originalHeaders [] = [] := by
  refine ⟨fun _ _ _ => rfl,
    fun row0 rest => ⟨rfl, uniqKeysAux_nodup _ _, fun k => ?_⟩, rfl⟩
  simpa using uniqKeysAux_mem (row0.map Prod.fst) [] k

/-- C10: the export adapter is a no-op exactly on an empty row list — for any
filename, no workbook is built and no download is triggered when the rows are
empty, and a spreadsheet is produced whenever they are not. -/
theorem downloadAsExcel_empty_noop :
    ∀ (data : List ExtractedItem) (fileName : String),
      (downloadAsExcel data fileName = none ↔ data = []) ∧
      downloadAsExcel [] fileName = none := by
  intro data fileName
  refine ⟨?_, rfl⟩
  unfold downloadAsExcel
  rcases data with _ | ⟨r, rest⟩ <;> simp

/-- C3 (code bug): the upload boundary admits a file that is both larger than
`MAX_FILE_SIZE` and of a media type outside `SUPPORTED_FILE_TYPES` — the
constants exist but `handleFileUpload` never consults them, so the queue
grows by one instead of staying unchanged. -/
theorem upload_gate_not_enforced :
    MAX_FILE_SIZE < 10485761 ∧
    ("text/plain" ∉ SUPPORTED_FILE_TYPES) ∧
    (handleFileUpload []
      [{ name := "big.txt", type := "text/plain", size := 10485761,
         content := "" }]).length = 1 := by
  exact ⟨by decide, by decide, rfl⟩

/-- C6 (amended, the sequential orchestrator of `src/constants.tsx`): when
the OCR step throws for a document, its `ocrStatus` becomes `error`, its
extraction is still attempted with the empty OCR text, it reaches
`completed` whenever extraction succeeds, and its processing state is
`error` exactly when extraction itself failed. -/
theorem ocr_failure_isolated_sequential
    (extractTextFromPdf : String → Except Unit String)
    (performImageOcr : String → String → Except Unit String)
    (extract : FileDataX → String → Except Unit ExtractionResponse)
    (f : FileDataX)
    (hthrow : ocrDispatch extractTextFromPdf performImageOcr f = .error ()) :
    (seqDocConstants true extractTextFromPdf performImageOcr extract f).ocrStatus
        = .error ∧
    (seqDocConstants true extractTextFromPdf performImageOcr extract f).extractCalledWith
        = some ("") ∧
    (∀ resp, extract f ("") = .ok resp →
      (seqDocConstants true extractTextFromPdf performImageOcr extract f).status
          = .completed ∧
      (seqDocConstants true extractTextFromPdf performImageOcr extract f).records
          = resp.extracted_data.map
              (fun item => setKey item ("Source_File") (.s f.name))) ∧
    ((seqDocConstants true extractTextFromPdf performImageOcr extract f).status
        = .error ↔ ∃ e, extract f ("") = .error e) := by
  unfold seqDocConstants
  rw [hthrow]
  unfold constantsAfterOcr
  cases hx : extract f ("") with
  | ok resp => simp [hx]
  | error e => simp [hx]

/-- Witness for the amended C6 at a concrete PDF document whose OCR throws
and whose extraction succeeds. -/
theorem ocr_failure_isolated_sequential_witness :
    (seqDocConstants true (fun _ => .error ()) (fun _ _ => .ok (""))
        (fun _ _ => .ok ⟨[[("A", Scalar.s ("1"))]]⟩)
        (mkFile ("d.pdf") ("application/pdf"))).ocrStatus = .error ∧
    (seqDocConstants true (fun _ => .error ()) (fun _ _ => .ok (""))
        (fun _ _ => .ok ⟨[[("A", Scalar.s ("1"))]]⟩)
        (mkFile ("d.pdf") ("application/pdf"))).extractCalledWith = some ("") ∧
    (∀ resp, (fun (_ : FileDataX) (_ : String) =>
        (Except.ok ⟨[[("A", Scalar.s ("1"))]]⟩ :
          Except Unit ExtractionResponse)) (mkFile ("d.pdf") ("application/pdf")) ""
        = .ok resp →
      (seqDocConstants true (fun _ => .error ()) (fun _ _ => .ok (""))
          (fun _ _ => .ok ⟨[[("A", Scalar.s ("1"))]]⟩)
          (mkFile ("d.pdf") ("application/pdf"))).status = .completed ∧
      (seqDocConstants true (fun _ => .error ()) (fun _ _ => .ok (""))
          (fun _ _ => .ok ⟨[[("A", Scalar.s ("1"))]]⟩)
          (mkFile ("d.pdf") ("application/pdf"))).records
        = resp.extracted_data.map
            (fun item => setKey item ("Source_File")
              (.s (mkFile ("d.pdf") ("application/pdf")).name))) ∧
    ((seqDocConstants true (fun _ => .error ()) (fun _ _ => .ok (""))
        (fun _ _ => .ok ⟨[[("A", Scalar.s ("1"))]]⟩)
        (mkFile ("d.pdf") ("application/pdf"))).status = .error ↔
      ∃ e, (fun (_ : FileDataX) (_ : String) =>
        (Except.ok ⟨[[("A", Scalar.s ("1"))]]⟩ :
          Except Unit ExtractionResponse)) (mkFile ("d.pdf") ("application/pdf")) ""
        = .error e) :=
  ocr_failure_isolated_sequential (fun _ => .error ()) (fun _ _ => .ok (""))
    (fun _ _ => .ok ⟨[[("A", Scalar.s ("1"))]]⟩)
    (mkFile ("d.pdf") ("application/pdf")) rfl

/-- C6 counterexample (the parallel orchestrator of `src/App.tsx`, also named
in the claim's sources): an OCR throw is caught by the per-document handler —
the document is marked `error`, extraction is never attempted (the claim says
it still is), and `ocrStatus` is left at `running`, not `error`. -/
theorem ocr_failure_fatal_in_parallel :
    (parallelTask true (fun _ => .error ()) (fun _ _ => .ok (""))
        (fun _ _ => .ok ⟨[[("A", Scalar.s ("1"))]]⟩)
        (mkFile ("d.pdf") ("application/pdf"))).status = .error ∧
    (parallelTask true (fun _ => .error ()) (fun _ _ => .ok (""))
        (fun _ _ => .ok ⟨[[("A", Scalar.s ("1"))]]⟩)
        (mkFile ("d.pdf") ("application/pdf"))).extractCalledWith = none ∧
    (parallelTask true (fun _ => .error ()) (fun _ _ => .ok (""))
        (fun _ _ => .ok ⟨[[("A", Scalar.s ("1"))]]⟩)
        (mkFile ("d.pdf") ("application/pdf"))).ocrStatus = .running :=
  ⟨rfl, rfl, rfl⟩

/-- C9 (amended): disabling OCR marks a document `skipped` only in the
sequential orchestrator of `src/constants.tsx`; there, `ocrStatus` settles on
`error` exactly when the OCR step threw (processing continuing regardless).
The parallel orchestrator of `src/App.tsx` has no else-branch and leaves a
disabled document's `ocrStatus` at `idle`. -/
theorem ocr_disabled_skipped_sequential_only
    (extractTextFromPdf : String → Except Unit String)
    (performImageOcr : String → String → Except Unit String)
    (extract : FileDataX → String → Except Unit ExtractionResponse)
    (f : FileDataX) :
    (seqDocConstants false extractTextFromPdf performImageOcr extract f).ocrStatus
        = .skipped ∧
    ((seqDocConstants true extractTextFromPdf performImageOcr extract f).ocrStatus
        = .error ↔ ocrDispatch extractTextFromPdf performImageOcr f = .error ()) ∧
    (parallelTask false extractTextFromPdf performImageOcr extract f).ocrStatus
        = .idle := by
  refine ⟨?_, ?_, ?_⟩
  · unfold seqDocConstants constantsAfterOcr
    cases hx : extract f ("") <;> simp [hx]
  · unfold seqDocConstants
    cases hD : ocrDispatch extractTextFromPdf performImageOcr f with
    | ok t =>
      unfold constantsAfterOcr
      cases hx : extract f t <;> simp [hx, hD]
    | error e =>
      cases e
      unfold constantsAfterOcr
      cases hx : extract f ("") <;> simp [hx, hD]
  · unfold parallelTask afterOcrExtract
    cases hx : extract f ("") <;> simp [hx]

/-- C9 counterexample: in the parallel orchestrator named by the claim's
sources, a document processed with OCR disabled ends with `ocrStatus` `idle`,
not `skipped`. -/
theorem ocr_disabled_left_idle_in_parallel :
    (parallelTask false (fun _ => .ok ("")) (fun _ _ => .ok (""))
        (fun _ _ => .ok ⟨[[("A", Scalar.s ("1"))]]⟩)
        (mkFile ("a.png") ("image/png"))).ocrStatus = .idle ∧
    OcrStatus.idle ≠ OcrStatus.skipped :=
  ⟨rfl, by decide⟩

/-- C4 counterexample: the response text `"{}"` (written with escaped braces)
is valid JSON without an `extracted_data` array, yet the extraction client
returns it as a success — `InvalidResponseFormat` is NOT raised when the
parsed object lacks the field, refuting the claim's second disjunct. -/
theorem valid_json_without_extracted_data_accepted :
    jsonParse (sanitize ("\x7b\x7d")) = some (Json.obj []) ∧
    extractDataFromDocument ("\x7b\x7d") = .ok (Json.obj []) ∧
    extractDataFromDocument ("\x7b\x7d") ≠ .error .invalidResponseFormat :=
  ⟨rfl, rfl, fun h => Except.noConfusion h⟩

/-- C4 (amended): the extraction client raises `InvalidResponseFormat`
exactly when the sanitized (fence-stripped) response text is not valid JSON;
any successfully parsed value — whether or not it carries an
`extracted_data` array — is returned unvalidated. -/
theorem invalid_format_iff_unparseable (text : String) (hne : text ≠ "") :
    (extractDataFromDocument text = .error .invalidResponseFormat ↔
      jsonParse (sanitize text) = none) ∧
    (∀ v, jsonParse (sanitize text) = some v →
      extractDataFromDocument text = .ok v) := by
  simp only [extractDataFromDocument]
  rw [if_neg hne]
  cases h : jsonParse (sanitize text) with
  | none => simp [h]
  | some v =>
    refine ⟨by simp, ?_⟩
    intro w hw
    injection hw with hvw
    subst hvw
    rfl

/-- Witness for the amended C4 at the spec's own malformed response text. -/
theorem invalid_format_iff_unparseable_witness :
    ("not json" : String) ≠ "" ∧
    ((extractDataFromDocument ("not json") = .error .invalidResponseFormat ↔
      jsonParse (sanitize ("not json")) = none) ∧
     (∀ v, jsonParse (sanitize ("not json")) = some v →
       extractDataFromDocument ("not json") = .ok v)) :=
  ⟨by decide, invalid_format_iff_unparseable ("not json") (by decide)⟩

/-! ### Round-trip lemmas for the serialized response fragment -/

theorem skipWs_cons_not (c : Char) (r : List Char) (h : isWs c = false) :
    skipWs (c :: r) = c :: r := by
  simp [skipWs, h]

theorem isDigit_ne (c d : Char) (h : c.isDigit = true) (hd : d.isDigit = false) :
    ¬(c = d) :=
  fun hc => by subst hc; rw [h] at hd; exact Bool.noConfusion hd

theorem isDigit_not_ws (c : Char) (h : c.isDigit = true) : isWs c = false := by
  have h1 := isDigit_ne c ' ' h (by decide)
  have h2 := isDigit_ne c '\n' h (by decide)
  have h3 := isDigit_ne c '\t' h (by decide)
  have h4 := isDigit_ne c '\r' h (by decide)
  simp [isWs, h1, h2, h3, h4]

theorem digitsVal_append_singleton (ds : List Char) (c : Char) :
    digitsVal (ds ++ [c]) = 10 * digitsVal ds + charToDigit c := by
  unfold digitsVal
  rw [List.foldl_append]
  simp [Nat.mul_comm]

theorem digitToChar_isDigit (d : Nat) (h : d < 10) :
    (digitToChar d).isDigit = true := by
  interval_cases d <;> decide

theorem charToDigit_digitToChar (d : Nat) (h : d < 10) :
    charToDigit (digitToChar d) = d := by
  interval_cases d <;> decide

theorem natCharsAux_spec (fuel : Nat) : ∀ n : Nat, n + 1 ≤ fuel →
    (∀ c ∈ natCharsAux fuel n, c.isDigit = true) ∧
    natCharsAux fuel n ≠ [] ∧
    digitsVal (natCharsAux fuel n) = n := by
  induction fuel with
  | zero => intro n hn; omega
  | succ f ih =>
    intro n hn
    by_cases h10 : n < 10
    · refine ⟨?_, ?_, ?_⟩
      · intro c hc
        simp only [natCharsAux, if_pos h10, List.mem_singleton] at hc
        subst hc
        exact digitToChar_isDigit n h10
      · simp [natCharsAux, if_pos h10]
      · simp only [natCharsAux, if_pos h10]
        show digitsVal ([] ++ [digitToChar n]) = n
        rw [digitsVal_append_singleton]
        simp [digitsVal, charToDigit_digitToChar n h10]
    · have hdiv : n / 10 + 1 ≤ f := by omega
      obtain ⟨hdig, hne, hval⟩ := ih (n / 10) hdiv
      refine ⟨?_, ?_, ?_⟩
      · intro c hc
        simp only [natCharsAux, if_neg h10, List.mem_append,
          List.mem_singleton] at hc
        rcases hc with hc | rfl
        · exact hdig c hc
        · exact digitToChar_isDigit (n % 10) (Nat.mod_lt n (by omega))
      · simp [natCharsAux, if_neg h10]
      · simp only [natCharsAux, if_neg h10]
        rw [digitsVal_append_singleton, hval,
          charToDigit_digitToChar (n % 10) (Nat.mod_lt n (by omega))]
        omega

theorem natChars_spec (n : Nat) :
    (∀ c ∈ natChars n, c.isDigit = true) ∧ natChars n ≠ [] ∧
    digitsVal (natChars n) = n :=
  natCharsAux_spec (n + 1) n (Nat.le_refl _)

theorem parseDigits_append (ds rest : List Char)
    (hds : ∀ c ∈ ds, c.isDigit = true)
    (hrest : ∀ c, rest.head? = some c → c.isDigit = false) :
    parseDigits (ds ++ rest) = (ds, rest) := by
  induction ds with
  | nil =>
    cases rest with
    | nil => rfl
    | cons c r => simp [parseDigits, hrest c rfl]
  | cons c ds' ih =>
    have hc := hds c (by simp)
    simp [parseDigits, hc, ih (fun d hd => hds d (by simp [hd]))]

theorem parseStringBody_escape (s rest : List Char) :
    parseStringBody (escapeChars s ++ '"' :: rest) = some (s, rest) := by
  induction s with
  | nil =>
    show parseStringBody ('"' :: rest) = some ([], rest)
    rw [parseStringBody.eq_def]
    rfl
  | cons c cs ih =>
    by_cases hc : c = '"' ∨ c = '\\'
    · rcases hc with rfl | rfl
      · have hesc : escapeChars ('"' :: cs) = '\\' :: '"' :: escapeChars cs := by
          rw [escapeChars, if_pos (Or.inl rfl)]
        rw [hesc, List.cons_append, List.cons_append]
        have hred : parseStringBody ('\\' :: ('"' :: (escapeChars cs ++ '"' :: rest)))
            = (parseStringBody (escapeChars cs ++ '"' :: rest)).map
                (fun r => ('"' :: r.1, r.2)) := by
          rw [parseStringBody.eq_def]
          rfl
        rw [hred, ih]
        rfl
      · have hesc : escapeChars ('\\' :: cs) = '\\' :: '\\' :: escapeChars cs := by
          rw [escapeChars, if_pos (Or.inr rfl)]
        rw [hesc, List.cons_append, List.cons_append]
        have hred : parseStringBody ('\\' :: ('\\' :: (escapeChars cs ++ '"' :: rest)))
            = (parseStringBody (escapeChars cs ++ '"' :: rest)).map
                (fun r => ('\\' :: r.1, r.2)) := by
          rw [parseStringBody.eq_def]
          rfl
        rw [hred, ih]
        rfl
    · push_neg at hc
      have hesc : escapeChars (c :: cs) = c :: escapeChars cs := by
        rw [escapeChars, if_neg (not_or.mpr hc)]
      rw [hesc, List.cons_append]
      rw [parseStringBody.eq_def]
      dsimp only
      rw [if_neg hc.1, if_neg hc.2, ih]
      rfl

theorem sepHead_not_digit (rest : List Char) (h : sepHead rest) :
    ∀ c, rest.head? = some c → c.isDigit = false := by
  rcases h with rfl | ⟨c, r, rfl, hc⟩
  · intro d hd; cases hd
  · intro d hd
    rw [List.head?_cons] at hd
    injection hd with hdc
    subst hdc
    rcases hc with rfl | rfl | rfl | rfl <;> decide

theorem parseVal_digit_head (g : Nat) (c : Char) (s : List Char)
    (hc : c.isDigit = true) :
    parseVal (g + 1) (c :: s) =
      some (Json.num (digitsVal (parseDigits (c :: s)).1 : Int),
        (parseDigits (c :: s)).2) := by
  have hskip := skipWs_cons_not c s (isDigit_not_ws c hc)
  rw [parseVal.eq_def]
  dsimp only
  rw [hskip]
  dsimp only
  rw [if_neg (isDigit_ne c '"' hc (by decide)),
    if_neg (isDigit_ne c '[' hc (by decide)),
    if_neg (isDigit_ne c '\x7b' hc (by decide)),
    if_neg (isDigit_ne c '-' hc (by decide)),
    if_pos hc]

theorem parseVal_scalar (g : Nat) (v : Scalar) (rest : List Char)
    (hrest : sepHead rest) :
    parseVal (g + 1) (scalarChars v ++ rest) = some (scalarJson v, rest) := by
  cases v with
  | s str =>
    show parseVal (g + 1) ('"' :: ((escapeChars str.data ++ ['"']) ++ rest)) = _
    rw [List.append_assoc, List.singleton_append]
    have hred : parseVal (g + 1) ('"' :: (escapeChars str.data ++ '"' :: rest))
        = (parseStringBody (escapeChars str.data ++ '"' :: rest)).map
            (fun r => (Json.str ⟨r.1⟩, r.2)) := rfl
    rw [hred, parseStringBody_escape]
    rfl
  | null =>
    show parseVal (g + 1) ('n' :: 'u' :: 'l' :: 'l' :: rest) = _
    rfl
  | n i =>
    have hnd := sepHead_not_digit rest hrest
    by_cases hneg : i < 0
    · show parseVal (g + 1) (intChars i ++ rest) = _
      rw [show intChars i = '-' :: natChars i.natAbs from by
        rw [intChars, if_pos hneg]]
      rw [List.cons_append]
      obtain ⟨hdig, hne, hval⟩ := natChars_spec i.natAbs
      have hred : parseVal (g + 1) ('-' :: (natChars i.natAbs ++ rest))
          = (if (parseDigits (natChars i.natAbs ++ rest)).1 = [] then none
             else some (Json.num
               (-(digitsVal (parseDigits (natChars i.natAbs ++ rest)).1 : Int)),
               (parseDigits (natChars i.natAbs ++ rest)).2)) := rfl
      rw [hred, parseDigits_append _ _ hdig hnd]
      dsimp only
      rw [if_neg hne, hval]
      have hi : -((i.natAbs : Nat) : Int) = i := by omega
      rw [hi]
      rfl
    · show parseVal (g + 1) (intChars i ++ rest) = _
      rw [show intChars i = natChars i.toNat from by rw [intChars, if_neg hneg]]
      obtain ⟨hdig, hne, hval⟩ := natChars_spec i.toNat
      obtain ⟨c, cs, hcc⟩ := List.exists_cons_of_ne_nil hne
      rw [hcc] at hdig hval
      rw [hcc, List.cons_append]
      have hc : c.isDigit = true := hdig c (List.mem_cons_self _ _)
      rw [parseVal_digit_head g c _ hc]
      rw [show c :: (cs ++ rest) = (c :: cs) ++ rest from rfl]
      rw [parseDigits_append _ _ hdig hnd]
      dsimp only
      rw [hval]
      have hi : ((i.toNat : Nat) : Int) = i := by omega
      rw [hi]
      rfl

theorem parseObjTail_step (g' : Nat) (k : String) (v : Scalar) (Z : List Char)
    (hZ : sepHead Z) :
    parseObjTail (g' + 1 + 1)
        ('"' :: (escapeChars k.data ++ '"' :: (':' :: (scalarChars v ++ Z))))
      = (match skipWs Z with
         | [] => none
         | e :: r4 =>
           if e = ',' then
             (parseObjTail (g' + 1) r4).map
               (fun r => ((k, scalarJson v) :: r.1, r.2))
           else if e = '\x7d' then some ([(k, scalarJson v)], r4)
           else none) := by
  rw [parseObjTail.eq_def]
  dsimp only
  rw [skipWs_cons_not _ _ (by decide)]
  dsimp only
  rw [if_neg (by decide), if_pos rfl]
  rw [parseStringBody_escape]
  dsimp only
  rw [skipWs_cons_not _ _ (by decide)]
  dsimp only
  rw [if_pos rfl]
  rw [parseVal_scalar g' v Z hZ]

theorem parseObjTail_fields (fields : ExtractedItem) :
    ∀ (fuel : Nat) (rest : List Char),
    fields.length + 2 ≤ fuel → sepHead rest →
    parseObjTail fuel (joinSep (fields.map pairChars) ++ '\x7d' :: rest)
      = some (fields.map (fun p => (p.1, scalarJson p.2)), rest) := by
  induction fields with
  | nil =>
    intro fuel rest hfuel _
    obtain ⟨g, rfl⟩ : ∃ g, fuel = g + 1 := ⟨fuel - 1, by omega⟩
    rfl
  | cons p fs ih =>
    intro fuel rest hfuel hrest
    obtain ⟨g', rfl⟩ : ∃ g', fuel = g' + 1 + 1 := ⟨fuel - 2, by simp at hfuel; omega⟩
    cases fs with
    | nil =>
      show parseObjTail (g' + 1 + 1) (pairChars p ++ '\x7d' :: rest) = _
      rw [show pairChars p ++ '\x7d' :: rest
          = '"' :: (escapeChars p.1.data ++ '"'
              :: (':' :: (scalarChars p.2 ++ '\x7d' :: rest))) from by
        simp [pairChars, List.append_assoc]]
      rw [parseObjTail_step g' p.1 p.2 ('\x7d' :: rest)
        (Or.inr ⟨'\x7d', rest, rfl, Or.inr (Or.inr (Or.inl rfl))⟩)]
      rw [skipWs_cons_not _ _ (by decide)]
      dsimp only
      rw [if_neg (by decide), if_pos rfl]
      rfl
    | cons q fs' =>
      show parseObjTail (g' + 1 + 1)
          ((pairChars p ++ ',' :: joinSep ((q :: fs').map pairChars))
            ++ '\x7d' :: rest) = _
      rw [show (pairChars p ++ ',' :: joinSep ((q :: fs').map pairChars))
            ++ '\x7d' :: rest
          = '"' :: (escapeChars p.1.data ++ '"' :: (':' :: (scalarChars p.2
              ++ ',' :: (joinSep ((q :: fs').map pairChars) ++ '\x7d' :: rest))))
          from by simp [pairChars, List.append_assoc]]
      rw [parseObjTail_step g' p.1 p.2
        (',' :: (joinSep ((q :: fs').map pairChars) ++ '\x7d' :: rest))
        (Or.inr ⟨',', _, rfl, Or.inl rfl⟩)]
      rw [skipWs_cons_not _ _ (by decide)]
      dsimp only
      rw [if_pos rfl]
      rw [ih (g' + 1) rest (by simp at hfuel ⊢; omega) hrest]
      rfl

theorem parseVal_rec (fields : ExtractedItem) (g : Nat) (rest : List Char)
    (hfuel : fields.length + 2 ≤ g) (hrest : sepHead rest) :
    parseVal (g + 1) (recChars fields ++ rest) = some (recJson fields, rest) := by
  show parseVal (g + 1)
    ('\x7b' :: ((joinSep (fields.map pairChars) ++ ['\x7d']) ++ rest)) = _
  rw [List.append_assoc, List.singleton_append]
  have hred : parseVal (g + 1)
      ('\x7b' :: (joinSep (fields.map pairChars) ++ '\x7d' :: rest))
      = (parseObjTail g (joinSep (fields.map pairChars) ++ '\x7d' :: rest)).map
          (fun r => (Json.obj r.1, r.2)) := rfl
  rw [hred, parseObjTail_fields fields g rest hfuel hrest]
  rfl

theorem parseArrTail_rows (rows : List ExtractedItem) :
    ∀ (fuel : Nat) (rest : List Char),
    rowsNeed rows ≤ fuel → sepHead rest →
    parseArrTail fuel (joinSep (rows.map recChars) ++ ']' :: rest)
      = some (rows.map recJson, rest) := by
  induction rows with
  | nil =>
    intro fuel rest hfuel _
    obtain ⟨g, rfl⟩ : ∃ g, fuel = g + 1 := ⟨fuel - 1, by simp [rowsNeed] at hfuel; omega⟩
    rfl
  | cons r rs ih =>
    intro fuel rest hfuel hrest
    simp only [rowsNeed] at hfuel
    obtain ⟨g, rfl⟩ : ∃ g, fuel = g + 1 := ⟨fuel - 1, by omega⟩
    obtain ⟨g', rfl⟩ : ∃ g', g = g' + 1 := ⟨g - 1, by omega⟩
    cases rs with
    | nil =>
      show parseArrTail (g' + 1 + 1) (recChars r ++ ']' :: rest) = _
      rw [show recChars r ++ ']' :: rest
          = '\x7b' :: ((joinSep (r.map pairChars) ++ ['\x7d']) ++ ']' :: rest)
          from by simp [recChars]]
      rw [parseArrTail.eq_def]
      dsimp only
      rw [skipWs_cons_not _ _ (by decide)]
      dsimp only
      rw [if_neg (by decide)]
      rw [show '\x7b' :: ((joinSep (r.map pairChars) ++ ['\x7d']) ++ ']' :: rest)
          = recChars r ++ ']' :: rest from by simp [recChars]]
      rw [parseVal_rec r g' (']' :: rest) (by omega)
        (Or.inr ⟨']', rest, rfl, Or.inr (Or.inl rfl)⟩)]
      dsimp only
      rw [skipWs_cons_not _ _ (by decide)]
      dsimp only
      rw [if_neg (by decide), if_pos rfl]
      rfl
    | cons q qs =>
      show parseArrTail (g' + 1 + 1)
          ((recChars r ++ ',' :: joinSep ((q :: qs).map recChars))
            ++ ']' :: rest) = _
      rw [show (recChars r ++ ',' :: joinSep ((q :: qs).map recChars)) ++ ']' :: rest
          = '\x7b' :: ((joinSep (r.map pairChars) ++ ['\x7d'])
              ++ ',' :: (joinSep ((q :: qs).map recChars) ++ ']' :: rest))
          from by simp [recChars, List.append_assoc]]
      rw [parseArrTail.eq_def]
      dsimp only
      rw [skipWs_cons_not _ _ (by decide)]
      dsimp only
      rw [if_neg (by decide)]
      rw [show '\x7b' :: ((joinSep (r.map pairChars) ++ ['\x7d'])
            ++ ',' :: (joinSep ((q :: qs).map recChars) ++ ']' :: rest))
          = recChars r ++ ',' :: (joinSep ((q :: qs).map recChars) ++ ']' :: rest)
          from by simp [recChars, List.append_assoc]]
      rw [parseVal_rec r g' _ (by omega) (Or.inr ⟨',', _, rfl, Or.inl rfl⟩)]
      dsimp only
      rw [skipWs_cons_not _ _ (by decide)]
      dsimp only
      rw [if_pos rfl]
      rw [ih (g' + 1) rest (by omega) hrest]
      rfl

theorem parseVal_resp (rows : List ExtractedItem) (fuel : Nat) (rest : List Char)
    (hfuel : rowsNeed rows + 4 ≤ fuel) (hrest : sepHead rest) :
    parseVal fuel (respChars rows ++ rest) = some (respJson rows, rest) := by
  obtain ⟨m, rfl⟩ : ∃ m, fuel = m + 1 + 1 + 1 + 1 := ⟨fuel - 4, by omega⟩
  rw [show respChars rows ++ rest
      = '\x7b' :: ('"' :: ("extracted_data".data ++ '"'
          :: (':' :: (rowsChars rows ++ '\x7d' :: rest)))) from by
    simp [respChars, List.append_assoc]]
  have hred : parseVal (m + 1 + 1 + 1 + 1)
      ('\x7b' :: ('"' :: ("extracted_data".data ++ '"'
        :: (':' :: (rowsChars rows ++ '\x7d' :: rest)))))
      = (parseObjTail (m + 1 + 1 + 1)
          ('"' :: ("extracted_data".data ++ '"'
            :: (':' :: (rowsChars rows ++ '\x7d' :: rest))))).map
          (fun r => (Json.obj r.1, r.2)) := rfl
  rw [hred]
  rw [parseObjTail.eq_def]
  dsimp only
  rw [skipWs_cons_not _ _ (by decide)]
  dsimp only
  rw [if_neg (by decide), if_pos rfl]
  rw [show (['e', 'x', 't', 'r', 'a', 'c', 't', 'e', 'd', '_', 'd', 'a', 't',
      'a'] : List Char) = escapeChars ("extracted_data".data) from rfl]
  rw [parseStringBody_escape]
  dsimp only
  rw [skipWs_cons_not _ _ (by decide)]
  dsimp only
  rw [if_pos rfl]
  rw [show rowsChars rows ++ '\x7d' :: rest
      = '[' :: (joinSep (rows.map recChars) ++ ']' :: ('\x7d' :: rest)) from by
    simp [rowsChars, List.append_assoc]]
  have hredA : parseVal (m + 2)
      ('[' :: (joinSep (rows.map recChars) ++ ']' :: ('\x7d' :: rest)))
      = (parseArrTail (m + 1)
          (joinSep (rows.map recChars) ++ ']' :: ('\x7d' :: rest))).map
          (fun r => (Json.arr r.1, r.2)) := rfl
  rw [hredA]
  rw [parseArrTail_rows rows (m + 1) ('\x7d' :: rest) (by omega)
    (Or.inr ⟨'\x7d', rest, rfl, Or.inr (Or.inr (Or.inl rfl))⟩)]
  simp only [Option.map_some']
  rw [skipWs_cons_not _ _ (by decide)]
  dsimp only
  rw [if_neg (by decide), if_pos rfl]
  rfl

theorem scalarChars_len (v : Scalar) : 1 ≤ (scalarChars v).length := by
  cases v with
  | s str => simp [scalarChars]
  | null => simp [scalarChars]
  | n i =>
    simp only [scalarChars, intChars]
    by_cases hneg : i < 0
    · simp [hneg]
    · rw [if_neg hneg]
      have hne := (natChars_spec i.toNat).2.1
      cases h : natChars i.toNat with
      | nil => exact absurd h hne
      | cons c cs => simp

theorem pairChars_len (p : String × Scalar) : 4 ≤ (pairChars p).length := by
  have := scalarChars_len p.2
  simp [pairChars, List.length_append]
  omega

theorem joinSep_len_ge : ∀ (xss : List (List Char)),
    (∀ x ∈ xss, 4 ≤ x.length) → xss.length ≤ (joinSep xss).length
  | [], _ => by simp [joinSep]
  | [x], h => by
    have := h x (by simp)
    simp [joinSep]
    omega
  | x :: y :: t, h => by
    have hx := h x (by simp)
    have ih := joinSep_len_ge (y :: t) (fun z hz => h z (by simp [hz]))
    simp only [joinSep, List.length_append, List.length_cons] at ih ⊢
    omega

theorem recChars_len (r : ExtractedItem) :
    r.length + 2 ≤ (recChars r).length := by
  have hj := joinSep_len_ge (r.map pairChars) (by
    intro x hx
    obtain ⟨p, _, rfl⟩ := List.mem_map.mp hx
    exact pairChars_len p)
  simp only [List.length_map] at hj
  simp [recChars, List.length_append]
  omega

theorem rowsNeed_le : ∀ rows : List ExtractedItem,
    rowsNeed rows ≤ 2 * (rowsChars rows).length
  | [] => by simp [rowsNeed, rowsChars, joinSep]
  | [r] => by
    have h1 := recChars_len r
    simp only [rowsNeed, rowsChars, List.map_cons, List.map_nil, joinSep,
      List.length_cons, List.length_append, List.length_singleton]
    omega
  | r :: q :: t => by
    have h1 := recChars_len r
    have ih := rowsNeed_le (q :: t)
    simp only [rowsNeed, rowsChars, List.map_cons, joinSep, List.length_cons,
      List.length_append, List.length_singleton] at ih ⊢
    omega

theorem respChars_len (rows : List ExtractedItem) :
    (respChars rows).length = (rowsChars rows).length + 19 := by
  have hed : ("extracted_data".data : List Char).length = 14 := rfl
  simp only [respChars, List.length_cons, List.length_append,
    List.length_nil, List.length_singleton, hed]
  omega

theorem trimChars_wrap (a b : Char) (mid : List Char)
    (ha : isWs a = false) (hb : isWs b = false) :
    trimChars (a :: (mid ++ [b])) = a :: (mid ++ [b]) := by
  unfold trimChars
  rw [List.dropWhile_cons, if_neg (by simp [ha])]
  rw [show (a :: (mid ++ [b])).reverse = b :: (mid.reverse ++ [a]) from by simp]
  rw [List.dropWhile_cons, if_neg (by simp [hb])]
  rw [show (b :: (mid.reverse ++ [a])).reverse = a :: (mid ++ [b]) from by simp]

theorem sanitize_resp (rows : List ExtractedItem) :
    sanitizeChars (respChars rows) = respChars rows := by
  unfold sanitizeChars
  rw [show respChars rows = '\x7b' :: (('"' :: ("extracted_data".data ++ '"'
      :: ':' :: rowsChars rows)) ++ ['\x7d']) from rfl]
  rw [trimChars_wrap _ _ _ (by decide) (by decide)]
  rw [show dropFenceOpen ('\x7b' :: ((('"' :: ("extracted_data".data ++ '"'
      :: ':' :: rowsChars rows)) ++ ['\x7d'])))
      = '\x7b' :: ((('"' :: ("extracted_data".data ++ '"'
        :: ':' :: rowsChars rows)) ++ ['\x7d'])) from rfl]
  unfold dropFenceClose
  rw [show ('\x7b' :: ((('"' :: ("extracted_data".data ++ '"'
      :: ':' :: rowsChars rows)) ++ ['\x7d']))).reverse
      = '\x7d' :: ((('"' :: ("extracted_data".data ++ '"'
        :: ':' :: rowsChars rows))).reverse ++ ['\x7b']) from by simp]
  rfl

/-- Character-level form of the fenced wrapper. -/
theorem wrapFence_data (s : String) :
    (wrapFence s).data
      = '\x60' :: '\x60' :: '\x60' :: 'j' :: 's' :: 'o' :: 'n' :: '\n'
        :: (s.data ++ ['\n', '\x60', '\x60', '\x60']) := by
  simp [wrapFence, String.data_append]

theorem sanitize_wrap_resp (rows : List ExtractedItem) :
    sanitizeChars ((wrapFence (respSerialize rows)).data)
      = respChars rows ++ ['\n'] := by
  rw [wrapFence_data]
  rw [show (respSerialize rows).data = respChars rows from rfl]
  unfold sanitizeChars
  rw [show '\x60' :: '\x60' :: '\x60' :: 'j' :: 's' :: 'o' :: 'n' :: '\n'
      :: (respChars rows ++ ['\n', '\x60', '\x60', '\x60'])
      = '\x60' :: (('\x60' :: '\x60' :: 'j' :: 's' :: 'o' :: 'n' :: '\n'
        :: (respChars rows ++ ['\n', '\x60', '\x60'])) ++ ['\x60']) from by
    simp [List.append_assoc]]
  rw [trimChars_wrap _ _ _ (by decide) (by decide)]
  rw [show '\x60' :: (('\x60' :: '\x60' :: 'j' :: 's' :: 'o' :: 'n' :: '\n'
      :: (respChars rows ++ ['\n', '\x60', '\x60'])) ++ ['\x60'])
      = '\x60' :: '\x60' :: '\x60' :: 'j' :: 's' :: 'o' :: 'n'
        :: ('\n' :: (respChars rows ++ ['\n', '\x60', '\x60', '\x60'])) from by
    simp [List.append_assoc]]
  rw [show dropFenceOpen ('\x60' :: '\x60' :: '\x60' :: 'j' :: 's' :: 'o' :: 'n'
      :: ('\n' :: (respChars rows ++ ['\n', '\x60', '\x60', '\x60'])))
      = ('\n' :: (respChars rows ++ ['\n', '\x60', '\x60', '\x60'])).dropWhile isWs
      from rfl]
  rw [List.dropWhile_cons, if_pos (by decide)]
  rw [show respChars rows = '\x7b' :: (('"' :: ("extracted_data".data ++ '"'
      :: ':' :: rowsChars rows)) ++ ['\x7d']) from rfl]
  rw [List.cons_append, List.dropWhile_cons, if_neg (by decide)]
  unfold dropFenceClose
  rw [show ('\x7b' :: ((('"' :: ("extracted_data".data ++ '"'
      :: ':' :: rowsChars rows)) ++ ['\x7d']) ++ ['\n', '\x60', '\x60', '\x60'])).reverse
      = '\x60' :: '\x60' :: '\x60' :: ('\n' :: ((('"' :: ("extracted_data".data
        ++ '"' :: ':' :: rowsChars rows)) ++ ['\x7d']).reverse ++ ['\x7b']))
      from by simp]
  dsimp only
  simp [List.append_assoc]

theorem jsonParse_resp (rows : List ExtractedItem) :
    jsonParse (respSerialize rows) = some (respJson rows) := by
  unfold jsonParse
  rw [show (respSerialize rows).data = respChars rows from rfl]
  have hb := rowsNeed_le rows
  have hlen := respChars_len rows
  rw [show respChars rows = respChars rows ++ [] from by simp]
  rw [parseVal_resp rows _ [] (by
    simp only [List.append_nil]
    omega) (Or.inl rfl)]
  rfl

theorem jsonParse_wrap_resp (rows : List ExtractedItem) :
    jsonParse ⟨respChars rows ++ ['\n']⟩ = some (respJson rows) := by
  unfold jsonParse
  have hb := rowsNeed_le rows
  have hlen := respChars_len rows
  rw [show (⟨respChars rows ++ ['\n']⟩ : String).data
      = respChars rows ++ ['\n'] from rfl]
  rw [parseVal_resp rows _ ['\n'] (by
    simp only [List.length_append]
    omega) (Or.inr ⟨'\n', [], rfl, Or.inr (Or.inr (Or.inr rfl))⟩)]
  rfl

/-- C7: for every extracted record list, the serialized model response
wrapped in a markdown code fence is sanitized and parsed by the extraction
client to exactly the same result as the unwrapped response text, and both
parse to precisely that record list's JSON value. -/
theorem fence_strip_roundtrip (rows : List ExtractedItem) :
    extractDataFromDocument (wrapFence (respSerialize rows))
      = extractDataFromDocument (respSerialize rows) ∧
    extractDataFromDocument (respSerialize rows) = .ok (respJson rows) := by
  have hne1 : respSerialize rows ≠ "" := by
    intro h
    have := congrArg String.data h
    rw [show (respSerialize rows).data = respChars rows from rfl] at this
    rw [show respChars rows = '\x7b' :: (('"' :: ("extracted_data".data ++ '"'
      :: ':' :: rowsChars rows)) ++ ['\x7d']) from rfl] at this
    cases this
  have hne2 : wrapFence (respSerialize rows) ≠ "" := by
    intro h
    have := congrArg String.data h
    rw [wrapFence_data] at this
    cases this
  have h2 : extractDataFromDocument (respSerialize rows) = .ok (respJson rows) := by
    simp only [extractDataFromDocument]
    rw [if_neg hne1]
    rw [show sanitize (respSerialize rows) = respSerialize rows from by
      unfold sanitize
      rw [show (respSerialize rows).data = respChars rows from rfl,
        sanitize_resp]
      rfl]
    rw [jsonParse_resp]
  refine ⟨?_, h2⟩
  rw [h2]
  simp only [extractDataFromDocument]
  rw [if_neg hne2]
  rw [show sanitize (wrapFence (respSerialize rows))
      = ⟨respChars rows ++ ['\n']⟩ from by
    unfold sanitize
    rw [sanitize_wrap_resp]]
  rw [jsonParse_wrap_resp]

end DocuExtract
